import Mathlib

/-!
Verification of the gesture-binding core of cosmic-settings-daemon
(src/config/src/shortcuts/gesture.rs), shallowly embedded in Lean.

Rust i32 fingers are modelled as Int, with the i32 range made explicit
where the source performs a range-checked parse.  Rust `String` errors
produced by `format!` are modelled as Lean `String` values with the exact
message text.  `str::split("+")` is modelled by `splitPlus` on `List Char`,
which, like the Rust iterator, always yields at least one segment.
-/

/-- Describes an absolute direction (i.e. not relative to workspace direction). -/
inductive AbsoluteDirection where
  | AbsoluteUp
  | AbsoluteDown
  | AbsoluteLeft
  | AbsoluteRight
deriving DecidableEq, Repr

/-- Describes a relative direction (typically relative to the workspace direction). -/
inductive RelativeDirection where
  | RelativeForward
  | RelativeBackward
  | RelativeLeft
  | RelativeRight
deriving DecidableEq, Repr

/-- Describes a direction, either absolute or relative. -/
inductive Direction where
  | Relative (r : RelativeDirection)
  | Absolute (a : AbsoluteDirection)
deriving DecidableEq, Repr

/-- `impl ToString for Direction`: the canonical name of each variant. -/
def Direction.toString : Direction → String
  | .Absolute .AbsoluteUp => "AbsoluteUp"
  | .Absolute .AbsoluteDown => "AbsoluteDown"
  | .Absolute .AbsoluteLeft => "AbsoluteLeft"
  | .Absolute .AbsoluteRight => "AbsoluteRight"
  | .Relative .RelativeForward => "RelativeForward"
  | .Relative .RelativeBackward => "RelativeBackward"
  | .Relative .RelativeLeft => "RelativeLeft"
  | .Relative .RelativeRight => "RelativeRight"

/-- `impl FromStr for Direction`: exact match on the eight canonical names,
anything else is the constant error string produced by the source. -/
def Direction.fromStr (s : String) : Except String Direction :=
  if s = "AbsoluteUp" then .ok (.Absolute .AbsoluteUp)
  else if s = "AbsoluteDown" then .ok (.Absolute .AbsoluteDown)
  else if s = "AbsoluteLeft" then .ok (.Absolute .AbsoluteLeft)
  else if s = "AbsoluteRight" then .ok (.Absolute .AbsoluteRight)
  else if s = "RelativeForward" then .ok (.Relative .RelativeForward)
  else if s = "RelativeBackward" then .ok (.Relative .RelativeBackward)
  else if s = "RelativeLeft" then .ok (.Relative .RelativeLeft)
  else if s = "RelativeRight" then .ok (.Relative .RelativeRight)
  else .error "Invalid direction string"

/-- Description of a gesture that can be handled by the compositor.
`fingers` is an `i32` in the source, modelled as `Int`. -/
structure Gesture where
  fingers : Int
  direction : Direction
  description : Option String
deriving DecidableEq, Repr

/-- `Gesture::new`: creates a new gesture from a number of fingers and a
direction, with no description. -/
def Gesture.new (fingers : Int) (direction : Direction) : Gesture :=
  { fingers := fingers, direction := direction, description := none }

/-- `Gesture::is_absolute`. -/
def Gesture.isAbsolute (g : Gesture) : Bool :=
  match g.direction with
  | .Absolute _ => true
  | .Relative _ => false

/-! ## Decimal formatting of the finger count (Rust `{}` on `i32`) -/

/-- The decimal digits of `n`, most significant first; empty for `0`. -/
def natDigits : Nat → List Char
  | 0 => []
  | n + 1 => natDigits ((n + 1) / 10) ++ [Nat.digitChar ((n + 1) % 10)]
decreasing_by exact Nat.div_lt_self (Nat.succ_pos n) (by omega)

/-- Decimal representation of a natural number, as Rust `Display` prints it. -/
def natRepr (n : Nat) : String :=
  if n = 0 then "0" else String.mk (natDigits n)

/-- Decimal representation of an integer, as Rust `Display` prints an `i32`:
a leading minus sign for negative values, no plus sign ever. -/
def intRepr (i : Int) : String :=
  if i < 0 then "-" ++ natRepr i.natAbs else natRepr i.natAbs

/-! ## `i32::from_str` -/

/-- The numeric value of an ASCII digit character, or `none`. -/
def digitVal (c : Char) : Option Nat :=
  if 48 ≤ c.toNat ∧ c.toNat ≤ 57 then some (c.toNat - 48) else none

/-- Accumulating decimal reading of a run of characters; fails on the first
character that is not an ASCII digit. -/
def parseNatFrom (acc : Nat) : List Char → Option Nat
  | [] => some acc
  | c :: cs =>
    match digitVal c with
    | some d => parseNatFrom (10 * acc + d) cs
    | none => none

/-- `i32::from_str`: an optional sign, one or more ASCII digits, and the
value must fit in `i32`.  Any failure (empty input, stray character,
overflow) is `none`; the source discards the concrete error kind. -/
def parseI32 (s : String) : Option Int :=
  match s.data with
  | [] => none
  | c :: cs =>
    if c = '+' then
      match cs with
      | [] => none
      | _ =>
        (parseNatFrom 0 cs).bind fun n =>
          if n ≤ 2147483647 then some (n : Int) else none
    else if c = '-' then
      match cs with
      | [] => none
      | _ =>
        (parseNatFrom 0 cs).bind fun n =>
          if n ≤ 2147483648 then some (-(n : Int)) else none
    else
      (parseNatFrom 0 (c :: cs)).bind fun n =>
        if n ≤ 2147483647 then some (n : Int) else none

/-! ## `str::split("+")` -/

/-- Rust `value.split("+")` as a list of segments; like the Rust iterator it
always yields at least one (possibly empty) segment. -/
def splitPlus : List Char → List (List Char)
  | [] => [[]]
  | c :: cs =>
    if c = '+' then [] :: splitPlus cs
    else
      match splitPlus cs with
      | [] => [[c]]
      | s :: ss => (c :: s) :: ss

/-! ## Gesture formatting and parsing -/

/-- `Gesture::to_string_in_place`: append the display form
`"<fingers> Finger <direction>"` to an existing string. -/
def Gesture.toStringInPlace (g : Gesture) (string : String) : String :=
  string ++ (intRepr g.fingers ++ " Finger " ++ g.direction.toString)

/-- `impl ToString for Gesture`: the display form, built by appending to an
empty string. -/
def Gesture.toString (g : Gesture) : String :=
  Gesture.toStringInPlace g ""

/-- `impl FromStr for Gesture`: split on `+`, read the finger count, read
the direction, reject a third segment.  Error strings are exactly the
`format!` messages of the source. -/
def Gesture.fromStr (value : String) : Except String Gesture :=
  match splitPlus value.data with
  | [] => .error "no value for the number of fingers"
  | n :: rest =>
    match parseI32 (String.mk n) with
    | none => .error "could not parse number of fingers"
    | some fingers =>
      match rest with
      | [] => .error "could not parse direction"
      | n2 :: rest2 =>
        match Direction.fromStr (String.mk n2) with
        | .error e => .error e
        | .ok direction =>
          match rest2 with
          | n3 :: _ => .error ("Extra data " ++ String.mk n3 ++ " not expected")
          | [] => .ok { fingers := fingers, direction := direction, description := none }

/-- A numeric encoding of a direction, mirroring how `derive(Hash)` feeds
the enum discriminants to the hasher. -/
def Direction.idx : Direction → Nat
  | .Relative .RelativeForward => 0
  | .Relative .RelativeBackward => 1
  | .Relative .RelativeLeft => 2
  | .Relative .RelativeRight => 3
  | .Absolute .AbsoluteUp => 4
  | .Absolute .AbsoluteDown => 5
  | .Absolute .AbsoluteLeft => 6
  | .Absolute .AbsoluteRight => 7

/-- A numeric encoding of an optional description string. -/
def descEnc : Option String → Nat
  | none => 0
  | some s => 1 + s.data.foldl (fun a c => a * 1114112 + c.toNat + 1) 0

/-- Model of the `derive(Hash)` instance: a deterministic function of all
three fields, fed in declaration order. -/
def Gesture.hashModel (g : Gesture) : Nat :=
  Nat.pair (2 * g.fingers.natAbs + (if g.fingers < 0 then 1 else 0))
    (Nat.pair g.direction.idx (descEnc g.description))

/-- Decidable equality of parse results, used to state rejection facts
computably. -/
instance : DecidableEq (Except String Gesture) := fun a b =>
  match a, b with
  | .ok x, .ok y =>
    if h : x = y then isTrue (by rw [h]) else isFalse (fun hc => h (by injection hc))
  | .error x, .error y =>
    if h : x = y then isTrue (by rw [h]) else isFalse (fun hc => h (by injection hc))
  | .ok _, .error _ => isFalse (fun hc => Except.noConfusion hc)
  | .error _, .ok _ => isFalse (fun hc => Except.noConfusion hc)

/-! ## Lemmas about `splitPlus` -/

lemma splitPlus_ne_nil (l : List Char) : splitPlus l ≠ [] := by
  induction l with
  | nil => simp [splitPlus]
  | cons c cs ih =>
    rw [splitPlus]
    split
    · simp
    · match h : splitPlus cs with
      | [] => simp
      | s :: ss => simp [h]

lemma splitPlus_of_not_mem (l : List Char) (h : '+' ∉ l) : splitPlus l = [l] := by
  induction l with
  | nil => rfl
  | cons c cs ih =>
    rw [splitPlus]
    have hc : c ≠ '+' := fun hc => h (hc ▸ List.mem_cons_self c cs)
    rw [if_neg hc, ih (fun hm => h (List.mem_cons_of_mem c hm))]

lemma splitPlus_append (a b : List Char) (h : '+' ∉ a) :
    splitPlus (a ++ '+' :: b) = a :: splitPlus b := by
  induction a with
  | nil => simp [splitPlus]
  | cons c cs ih =>
    have hc : c ≠ '+' := fun hc => h (hc ▸ List.mem_cons_self c cs)
    rw [List.cons_append, splitPlus, if_neg hc,
      ih (fun hm => h (List.mem_cons_of_mem c hm))]

/-! ## Lemmas about decimal digits and `parseI32` -/

lemma digitVal_digitChar (r : Nat) (h : r < 10) : digitVal (Nat.digitChar r) = some r := by
  interval_cases r <;> decide

lemma natDigits_all_digits (n : Nat) :
    ∀ c ∈ natDigits n, 48 ≤ c.toNat ∧ c.toNat ≤ 57 := by
  induction n using Nat.strong_induction_on with
  | _ n ih =>
    match n with
    | 0 => simp [natDigits]
    | m + 1 =>
      intro c hc
      rw [natDigits] at hc
      rcases List.mem_append.mp hc with h | h
      · exact ih ((m + 1) / 10) (Nat.div_lt_self (Nat.succ_pos m) (by omega)) c h
      · have hr : (m + 1) % 10 < 10 := Nat.mod_lt _ (by omega)
        have := digitVal_digitChar _ hr
        simp only [List.mem_singleton] at h
        subst h
        unfold digitVal at this
        by_contra hcon
        rw [if_neg (by tauto)] at this
        exact Option.noConfusion this

lemma parseNatFrom_append (acc : Nat) (a b : List Char) :
    parseNatFrom acc (a ++ b) =
      (parseNatFrom acc a).bind (fun m => parseNatFrom m b) := by
  induction a generalizing acc with
  | nil => simp [parseNatFrom]
  | cons c cs ih =>
    rw [List.cons_append, parseNatFrom]
    cases h : digitVal c with
    | none => simp [parseNatFrom, h]
    | some d => simp [parseNatFrom, h, ih]

lemma parseNatFrom_natDigits (n : Nat) :
    ∀ acc, parseNatFrom acc (natDigits n) =
      some (acc * 10 ^ (natDigits n).length + n) := by
  induction n using Nat.strong_induction_on with
  | _ n ih =>
    match n with
    | 0 => intro acc; simp [natDigits, parseNatFrom]
    | m + 1 =>
      intro acc
      rw [natDigits, parseNatFrom_append]
      rw [ih ((m + 1) / 10) (Nat.div_lt_self (Nat.succ_pos m) (by omega))]
      have hr : (m + 1) % 10 < 10 := Nat.mod_lt _ (by omega)
      rw [Option.some_bind]
      simp only [parseNatFrom, digitVal_digitChar _ hr]
      have hdm := Nat.div_add_mod (m + 1) 10
      rw [List.length_append, List.length_singleton, pow_succ]
      congr 1
      nlinarith [hdm]

lemma natRepr_all_digits (n : Nat) :
    ∀ c ∈ (natRepr n).data, 48 ≤ c.toNat ∧ c.toNat ≤ 57 := by
  unfold natRepr
  split
  · intro c hc
    simp only [show ("0" : String).data = ['0'] from rfl, List.mem_singleton] at hc
    subst hc; decide
  · exact natDigits_all_digits n

lemma natDigits_ne_nil (n : Nat) (h : 0 < n) : natDigits n ≠ [] := by
  match n, h with
  | m + 1, _ => rw [natDigits]; simp

lemma natRepr_data_ne_nil (n : Nat) : (natRepr n).data ≠ [] := by
  unfold natRepr
  split
  · simp [show ("0" : String).data = ['0'] from rfl]
  · simpa using natDigits_ne_nil n (by omega)

lemma parseNatFrom_natRepr (n : Nat) : parseNatFrom 0 (natRepr n).data = some n := by
  unfold natRepr
  split
  · subst n; decide
  · rw [show (String.mk (natDigits n)).data = natDigits n from rfl,
      parseNatFrom_natDigits n 0]
    simp

lemma plus_not_mem_natRepr (n : Nat) : '+' ∉ (natRepr n).data := by
  intro hm
  exact absurd (natRepr_all_digits n '+' hm) (by decide)

lemma parseI32_natRepr (n : Nat) (h : n ≤ 2147483647) :
    parseI32 (natRepr n) = some (n : Int) := by
  unfold parseI32
  match hd : (natRepr n).data with
  | [] => exact absurd hd (natRepr_data_ne_nil n)
  | c :: cs =>
    have hdig : 48 ≤ c.toNat ∧ c.toNat ≤ 57 := by
      apply natRepr_all_digits
      rw [hd]; exact List.mem_cons_self c cs
    have hplus : c ≠ '+' := by
      intro hc; subst hc; revert hdig; decide
    have hminus : c ≠ '-' := by
      intro hc; subst hc; revert hdig; decide
    dsimp only
    rw [if_neg hplus, if_neg hminus]
    rw [show (c :: cs) = (natRepr n).data from hd.symm, parseNatFrom_natRepr n]
    simp [h]

lemma plus_not_mem_intRepr (i : Int) : '+' ∉ (intRepr i).data := by
  unfold intRepr
  split
  · rw [String.data_append]
    intro hm
    rcases List.mem_append.mp hm with h | h
    · revert h; decide
    · exact plus_not_mem_natRepr _ h
  · exact plus_not_mem_natRepr _

lemma parseI32_intRepr (i : Int) (h1 : -2147483648 ≤ i) (h2 : i ≤ 2147483647) :
    parseI32 (intRepr i) = some i := by
  unfold intRepr
  split
  · case isTrue hneg =>
    have habs : (i.natAbs : Int) = -i := Int.ofNat_natAbs_of_nonpos (le_of_lt hneg)
    have hpos : 0 < i.natAbs := by omega
    unfold parseI32
    rw [String.data_append, show ("-" : String).data = ['-'] from rfl,
      List.singleton_append]
    dsimp only
    rw [if_neg (by decide : ¬ ('-' : Char) = '+'), if_pos rfl]
    match hd : (natRepr i.natAbs).data with
    | [] => exact absurd hd (natRepr_data_ne_nil _)
    | c :: cs =>
      dsimp only
      rw [show (c :: cs) = (natRepr i.natAbs).data from hd.symm, parseNatFrom_natRepr]
      have hle : i.natAbs ≤ 2147483648 := by omega
      simp only [Option.some_bind, if_pos hle]
      congr 1
      omega
  · case isFalse hnonneg =>
    have : (i.natAbs : Int) = i := Int.natAbs_of_nonneg (by omega)
    rw [parseI32_natRepr i.natAbs (by omega)]
    rw [this]

lemma parseNatFrom_none_of_bad (l : List Char) (c : Char)
    (hm : c ∈ l) (hb : digitVal c = none) : ∀ acc, parseNatFrom acc l = none := by
  induction l with
  | nil => exact absurd hm (List.not_mem_nil c)
  | cons x xs ih =>
    intro acc
    rw [parseNatFrom]
    cases hx : digitVal x with
    | none => rfl
    | some d =>
      rcases List.mem_cons.mp hm with h | h
      · subst h; rw [hx] at hb; exact Option.noConfusion hb
      · exact ih h _

lemma parseI32_none_of_space (s : String) (hm : ' ' ∈ s.data) : parseI32 s = none := by
  unfold parseI32
  match hd : s.data with
  | [] => exact absurd (hd ▸ hm) (List.not_mem_nil _)
  | c :: cs =>
    rw [hd] at hm
    dsimp only
    have hcs : ' ' ∈ cs → parseNatFrom 0 cs = none := fun h =>
      parseNatFrom_none_of_bad cs ' ' h (by decide) 0
    split
    · case isTrue hc =>
      subst hc
      have : ' ' ∈ cs := by
        rcases List.mem_cons.mp hm with h | h
        · exact absurd h (by decide)
        · exact h
      match cs with
      | [] => rfl
      | x :: xs => rw [hcs this]; rfl
    · split
      · case isTrue hc =>
        subst hc
        have : ' ' ∈ cs := by
          rcases List.mem_cons.mp hm with h | h
          · exact absurd h (by decide)
          · exact h
        match cs with
        | [] => rfl
        | x :: xs => rw [hcs this]; rfl
      · rw [parseNatFrom_none_of_bad (c :: cs) ' ' hm (by decide) 0]; rfl

/-! ## Lemmas about `Direction` -/

lemma Direction.fromStr_toString (d : Direction) :
    Direction.fromStr (Direction.toString d) = .ok d := by
  rcases d with r | a
  · cases r <;> rfl
  · cases a <;> rfl

lemma Direction.fromStr_ok_name (s : String) (d : Direction)
    (h : Direction.fromStr s = .ok d) : s = Direction.toString d := by
  unfold Direction.fromStr at h
  split_ifs at h
  all_goals first
    | exact Except.noConfusion h
    | (injection h with h2; subst h2; assumption)

lemma Direction.fromStr_unknown (s : String)
    (h : s ∉ (["AbsoluteUp", "AbsoluteDown", "AbsoluteLeft", "AbsoluteRight",
      "RelativeForward", "RelativeBackward", "RelativeLeft", "RelativeRight"] :
        List String)) :
    Direction.fromStr s = .error "Invalid direction string" := by
  unfold Direction.fromStr
  split_ifs
  all_goals first
    | rfl
    | (exfalso; exact h (by simp [*]))

lemma plus_not_mem_dirname (d : Direction) : '+' ∉ (Direction.toString d).data := by
  rcases d with r | a
  · cases r <;> decide
  · cases a <;> decide

/-! ## Lemmas about `Gesture.fromStr` and `Gesture.toString` -/

lemma string_mk_data (s : String) : String.mk s.data = s := rfl

lemma encode_data (f : Int) (d : Direction) :
    (intRepr f ++ "+" ++ Direction.toString d).data
      = (intRepr f).data ++ '+' :: (Direction.toString d).data := by
  rw [String.data_append, String.data_append]
  simp

lemma fromStr_encode (f : Int) (d : Direction)
    (h1 : -2147483648 ≤ f) (h2 : f ≤ 2147483647) :
    Gesture.fromStr (intRepr f ++ "+" ++ Direction.toString d)
      = .ok (Gesture.new f d) := by
  unfold Gesture.fromStr
  rw [encode_data, splitPlus_append _ _ (plus_not_mem_intRepr f),
    splitPlus_of_not_mem _ (plus_not_mem_dirname d)]
  dsimp only
  rw [string_mk_data, parseI32_intRepr f h1 h2]
  dsimp only
  rw [string_mk_data, Direction.fromStr_toString d]
  rfl

lemma fromStr_badint (s : String) (a : List Char) (rest : List (List Char))
    (hs : splitPlus s.data = a :: rest) (hp : parseI32 (String.mk a) = none) :
    Gesture.fromStr s = .error "could not parse number of fingers" := by
  unfold Gesture.fromStr
  rw [hs]
  dsimp only
  rw [hp]

lemma fromStr_missing_dir (s : String) (a : List Char) (f : Int)
    (hs : splitPlus s.data = [a]) (hp : parseI32 (String.mk a) = some f) :
    Gesture.fromStr s = .error "could not parse direction" := by
  unfold Gesture.fromStr
  rw [hs]
  dsimp only
  rw [hp]

lemma fromStr_trailing (s : String) (a b c : List Char) (rest : List (List Char))
    (f : Int) (d : Direction)
    (hs : splitPlus s.data = a :: b :: c :: rest)
    (hp : parseI32 (String.mk a) = some f)
    (hd : Direction.fromStr (String.mk b) = .ok d) :
    Gesture.fromStr s = .error ("Extra data " ++ String.mk c ++ " not expected") := by
  unfold Gesture.fromStr
  rw [hs]
  dsimp only
  rw [hp]
  dsimp only
  rw [hd]

lemma fromStr_ok_two_segments (s : String) (g : Gesture)
    (h : Gesture.fromStr s = .ok g) : (splitPlus s.data).length = 2 := by
  unfold Gesture.fromStr at h
  rcases hs : splitPlus s.data with _ | ⟨a, _ | ⟨b, _ | ⟨c, rest⟩⟩⟩ <;> rw [hs] at h
  · exact Except.noConfusion h
  · dsimp only at h
    rcases hp : parseI32 (String.mk a) with _ | f <;> rw [hp] at h <;>
      exact Except.noConfusion h
  · rfl
  · dsimp only at h
    rcases hp : parseI32 (String.mk a) with _ | f <;> rw [hp] at h
    · exact Except.noConfusion h
    · dsimp only at h
      rcases hd : Direction.fromStr (String.mk b) with e | dd <;> rw [hd] at h <;>
        exact Except.noConfusion h

lemma toString_data (g : Gesture) :
    (Gesture.toString g).data
      = (intRepr g.fingers).data ++ (" Finger " : String).data
          ++ (Direction.toString g.direction).data := by
  simp [Gesture.toString, Gesture.toStringInPlace, String.data_append]

lemma plus_not_mem_toString (g : Gesture) : '+' ∉ (Gesture.toString g).data := by
  rw [toString_data]
  intro hm
  rcases List.mem_append.mp hm with h | h
  · rcases List.mem_append.mp h with h2 | h2
    · exact plus_not_mem_intRepr _ h2
    · revert h2; decide
  · exact plus_not_mem_dirname _ h

lemma space_mem_toString (g : Gesture) : ' ' ∈ (Gesture.toString g).data := by
  rw [toString_data]
  exact List.mem_append.mpr (.inl (List.mem_append.mpr (.inr (by decide))))

lemma fromStr_display (g : Gesture) :
    Gesture.fromStr (Gesture.toString g)
      = .error "could not parse number of fingers" := by
  apply fromStr_badint _ (Gesture.toString g).data []
  · exact splitPlus_of_not_mem _ (plus_not_mem_toString g)
  · rw [string_mk_data]
    exact parseI32_none_of_space _ (space_mem_toString g)

/-! ## Claims -/

/-- Claim C1: for every i32 finger count `f` and every `Direction` `d`,
parsing the canonical encoding `"<f>+<name(d)>"` with `Gesture.fromStr`
succeeds and returns exactly `Gesture.new f d`, whose description is
`none`. -/
theorem gesture_parse_encode_roundtrip (f : Int) (d : Direction)
    (h1 : -2147483648 ≤ f) (h2 : f ≤ 2147483647) :
    Gesture.fromStr (intRepr f ++ "+" ++ Direction.toString d)
      = .ok (Gesture.new f d) ∧ (Gesture.new f d).description = none :=
  ⟨fromStr_encode f d h1 h2, rfl⟩

/-- Witness for C1 at `f = 3`, `d = Relative RelativeLeft`. -/
theorem gesture_parse_encode_roundtrip_witness :
    Gesture.fromStr (intRepr 3 ++ "+" ++ Direction.toString (.Relative .RelativeLeft))
      = .ok (Gesture.new 3 (.Relative .RelativeLeft))
      ∧ (Gesture.new 3 (.Relative .RelativeLeft)).description = none :=
  gesture_parse_encode_roundtrip 3 (.Relative .RelativeLeft) (by decide) (by decide)

/-- Claim C2 counterexample: on `"4+AbsoluteLeft+More+Info"` the parser
errors, but the error message names only the third segment `More`, not the
entire remaining content `More+Info` that the claim says it carries; the
result is also not the successful gesture. -/
theorem gesture_trailing_payload_cex :
    Gesture.fromStr "4+AbsoluteLeft+More+Info" = .error "Extra data More not expected"
      ∧ decide (Gesture.fromStr "4+AbsoluteLeft+More+Info"
          = .error "Extra data More+Info not expected") = false
      ∧ decide (Gesture.fromStr "4+AbsoluteLeft+More+Info"
          = .ok (Gesture.new 4 (.Absolute .AbsoluteLeft))) = false :=
  ⟨rfl, by decide, by decide⟩

/-- Claim C2 amended: when the first two `+`-segments are individually valid
and a third segment exists, `Gesture.fromStr` fails with the trailing-data
error carrying only the third segment; and any input with more than two
`+`-segments never parses successfully. -/
theorem gesture_trailing_data_amended :
    (∀ (s : String) (a b c : List Char) (rest : List (List Char))
        (f : Int) (d : Direction),
        splitPlus s.data = a :: b :: c :: rest →
        parseI32 (String.mk a) = some f →
        Direction.fromStr (String.mk b) = .ok d →
        Gesture.fromStr s = .error ("Extra data " ++ String.mk c ++ " not expected"))
      ∧ (∀ (s : String) (g : Gesture), 2 < (splitPlus s.data).length →
          decide (Gesture.fromStr s = .ok g) = false) := by
  refine ⟨fun s a b c rest f d hs hp hd => fromStr_trailing s a b c rest f d hs hp hd,
    fun s g hlen => ?_⟩
  rw [decide_eq_false_iff_not]
  intro hok
  have := fromStr_ok_two_segments s g hok
  omega

/-- Witness for the amended C2 at `"4+AbsoluteLeft+More+Info"`. -/
theorem gesture_trailing_data_amended_witness :
    Gesture.fromStr "4+AbsoluteLeft+More+Info" = .error "Extra data More not expected"
      ∧ decide (Gesture.fromStr "4+AbsoluteLeft+More+Info"
          = .ok (Gesture.new 4 (.Absolute .AbsoluteLeft))) = false :=
  ⟨gesture_trailing_data_amended.1 "4+AbsoluteLeft+More+Info"
      "4".data "AbsoluteLeft".data "More".data ["Info".data]
      4 (.Absolute .AbsoluteLeft) rfl rfl rfl,
    gesture_trailing_data_amended.2 "4+AbsoluteLeft+More+Info"
      (Gesture.new 4 (.Absolute .AbsoluteLeft)) (by decide)⟩

/-- Claim C3 counterexample: the source stores `fingers` as a signed `i32`,
so `"-1+AbsoluteUp"` parses successfully into a gesture whose finger count
is negative, contradicting the claim that negative first segments are
rejected with an invalid-finger-count error. -/
theorem gesture_negative_fingers_cex :
    Gesture.fromStr "-1+AbsoluteUp" = .ok (Gesture.new (-1) (.Absolute .AbsoluteUp))
      ∧ (Gesture.new (-1) (.Absolute .AbsoluteUp)).fingers < 0 :=
  ⟨rfl, by decide⟩

/-- Claim C3 amended: a first segment denoting a negative integer within the
i32 range is accepted, and the parsed gesture then has `fingers < 0`. -/
theorem gesture_negative_fingers_amended (f : Int) (d : Direction)
    (h1 : -2147483648 ≤ f) (h2 : f < 0) :
    Gesture.fromStr (intRepr f ++ "+" ++ Direction.toString d)
      = .ok (Gesture.new f d) ∧ (Gesture.new f d).fingers < 0 :=
  ⟨fromStr_encode f d h1 (by omega), h2⟩

/-- Witness for the amended C3 at `f = -1`, `d = Absolute AbsoluteUp`. -/
theorem gesture_negative_fingers_amended_witness :
    Gesture.fromStr (intRepr (-1) ++ "+" ++ Direction.toString (.Absolute .AbsoluteUp))
      = .ok (Gesture.new (-1) (.Absolute .AbsoluteUp))
      ∧ (Gesture.new (-1) (.Absolute .AbsoluteUp)).fingers < 0 :=
  gesture_negative_fingers_amended (-1) (.Absolute .AbsoluteUp) (by decide) (by decide)

/-- Claim C4: every constructible direction round-trips through its
canonical name, and `Direction.fromStr` is an exact match against the
closed name set: a successful parse can only come from the canonical name
itself. -/
theorem direction_roundtrip_exact :
    (∀ d : Direction, Direction.fromStr (Direction.toString d) = .ok d)
      ∧ (∀ (s : String) (d : Direction),
          Direction.fromStr s = .ok d → s = Direction.toString d) :=
  ⟨Direction.fromStr_toString, Direction.fromStr_ok_name⟩

/-- Witness for C4 at `Absolute AbsoluteUp`. -/
theorem direction_roundtrip_exact_witness :
    Direction.fromStr (Direction.toString (.Absolute .AbsoluteUp))
        = .ok (.Absolute .AbsoluteUp)
      ∧ ("AbsoluteUp" : String) = Direction.toString (.Absolute .AbsoluteUp) :=
  ⟨direction_roundtrip_exact.1 _,
    direction_roundtrip_exact.2 "AbsoluteUp" (.Absolute .AbsoluteUp) rfl⟩

/-- Claim C5 counterexample: on the unknown token `"Sideways"` the
direction error is the constant message `"Invalid direction string"`,
which is not the offending token, so the error does not carry the token;
likewise `Gesture.fromStr "2+"` produces the same constant message, not
the empty token. -/
theorem direction_error_payload_cex :
    Direction.fromStr "Sideways" = .error "Invalid direction string"
      ∧ (("Invalid direction string" : String) == "Sideways") = false
      ∧ Gesture.fromStr "2+" = .error "Invalid direction string"
      ∧ (("Invalid direction string" : String) == "") = false :=
  ⟨rfl, by decide, rfl, by decide⟩

/-- Claim C5 amended: every string that is not one of the eight canonical
direction names fails with the constant error message
`"Invalid direction string"`, which does not include the offending token;
in particular `Gesture.fromStr "2+"` fails with that same constant
message. -/
theorem direction_unknown_constant_error (s : String)
    (h : s ∉ (["AbsoluteUp", "AbsoluteDown", "AbsoluteLeft", "AbsoluteRight",
      "RelativeForward", "RelativeBackward", "RelativeLeft", "RelativeRight"] :
        List String)) :
    Direction.fromStr s = .error "Invalid direction string"
      ∧ Gesture.fromStr "2+" = .error "Invalid direction string" :=
  ⟨Direction.fromStr_unknown s h, rfl⟩

/-- Witness for the amended C5 at `"Sideways"`. -/
theorem direction_unknown_constant_error_witness :
    Direction.fromStr "Sideways" = .error "Invalid direction string"
      ∧ Gesture.fromStr "2+" = .error "Invalid direction string" :=
  direction_unknown_constant_error "Sideways" (by decide)

/-- Claim C6: whenever the first `+`-segment is not a valid i32 (non-numeric
tokens and out-of-range values alike), `Gesture.fromStr` returns the
invalid-finger-count error; the embedding is a total function on strings,
so no input can abort the parse.  The concrete conjuncts record the
non-numeric example and an out-of-i32-range example. -/
theorem gesture_invalid_finger_count_total :
    (∀ (s : String) (a : List Char) (rest : List (List Char)),
        splitPlus s.data = a :: rest → parseI32 (String.mk a) = none →
        Gesture.fromStr s = .error "could not parse number of fingers")
      ∧ Gesture.fromStr "three+Up" = .error "could not parse number of fingers"
      ∧ Gesture.fromStr "9999999999+AbsoluteUp"
          = .error "could not parse number of fingers" :=
  ⟨fromStr_badint, rfl, rfl⟩

/-- Witness for C6 at `"three+Up"`. -/
theorem gesture_invalid_finger_count_total_witness :
    Gesture.fromStr "three+Up" = .error "could not parse number of fingers" :=
  gesture_invalid_finger_count_total.1 "three+Up" "three".data ["Up".data] rfl rfl

/-- Claim C7: an input with fewer than two `+`-segments never parses
successfully; when the single segment is a valid integer the error is the
missing-direction message, as on the input `"3"`.  A missing first segment
cannot occur: `splitPlus`, like the Rust split iterator, always yields at
least one segment, so the missing-finger-count branch of the source is
unreachable and the claim about it holds vacuously. -/
theorem gesture_missing_segments :
    (∀ (s : String) (g : Gesture), (splitPlus s.data).length < 2 →
        decide (Gesture.fromStr s = .ok g) = false)
      ∧ (∀ (s : String) (a : List Char) (f : Int),
          splitPlus s.data = [a] → parseI32 (String.mk a) = some f →
          Gesture.fromStr s = .error "could not parse direction")
      ∧ Gesture.fromStr "3" = .error "could not parse direction" := by
  refine ⟨fun s g hlen => ?_, fromStr_missing_dir, rfl⟩
  rw [decide_eq_false_iff_not]
  intro hok
  have := fromStr_ok_two_segments s g hok
  omega

/-- Witness for C7 at the input `"3"`. -/
theorem gesture_missing_segments_witness :
    decide (Gesture.fromStr "3" = .ok (Gesture.new 3 (.Absolute .AbsoluteUp))) = false
      ∧ Gesture.fromStr "3" = .error "could not parse direction" :=
  ⟨gesture_missing_segments.1 "3" (Gesture.new 3 (.Absolute .AbsoluteUp)) (by decide),
    gesture_missing_segments.2.1 "3" "3".data 3 rfl rfl⟩

/-- Claim C8: the display formatter produces exactly
`"<fingers> Finger <direction-name>"` with the literal singular `Finger`,
and this display string is never accepted by the machine parser: parsing it
always fails (the single space-containing segment cannot be an integer). -/
theorem gesture_display_format_not_parseable (g : Gesture) :
    Gesture.toString g
        = intRepr g.fingers ++ " Finger " ++ Direction.toString g.direction
      ∧ Gesture.fromStr (Gesture.toString g)
          = .error "could not parse number of fingers" :=
  ⟨rfl, fromStr_display g⟩

/-- Witness for C8 at `Gesture.new 3 (Absolute AbsoluteUp)`. -/
theorem gesture_display_format_not_parseable_witness :
    Gesture.toString (Gesture.new 3 (.Absolute .AbsoluteUp))
        = intRepr (3 : Int) ++ " Finger "
            ++ Direction.toString (.Absolute .AbsoluteUp)
      ∧ Gesture.fromStr (Gesture.toString (Gesture.new 3 (.Absolute .AbsoluteUp)))
          = .error "could not parse number of fingers" :=
  gesture_display_format_not_parseable (Gesture.new 3 (.Absolute .AbsoluteUp))

/-- Claim C9: two gestures are equal iff all three fields agree, equal
gestures hash identically under the derived-hash model, and gestures that
differ only in description are not equal. -/
theorem gesture_eq_iff_fields :
    (∀ g1 g2 : Gesture, g1 = g2 ↔
        g1.fingers = g2.fingers ∧ g1.direction = g2.direction
          ∧ g1.description = g2.description)
      ∧ (∀ g1 g2 : Gesture, g1 = g2 →
          Gesture.hashModel g1 = Gesture.hashModel g2)
      ∧ (∀ (f : Int) (d : Direction) (d1 d2 : Option String), d1 ≠ d2 →
          decide (Gesture.mk f d d1 = Gesture.mk f d d2) = false) := by
  refine ⟨fun g1 g2 => ?_, fun g1 g2 h => by rw [h], fun f d d1 d2 h => ?_⟩
  · cases g1; cases g2; simp
  · rw [decide_eq_false_iff_not]
    intro hc
    injection hc with hf hd2 hd3
    exact h hd3

/-- Witness for C9: identical gestures share a hash, and adding a
description breaks equality. -/
theorem gesture_eq_iff_fields_witness :
    Gesture.hashModel (Gesture.new 3 (.Absolute .AbsoluteUp))
        = Gesture.hashModel (Gesture.new 3 (.Absolute .AbsoluteUp))
      ∧ decide (Gesture.mk 3 (.Absolute .AbsoluteUp) (some "swipe")
          = Gesture.mk 3 (.Absolute .AbsoluteUp) none) = false :=
  ⟨gesture_eq_iff_fields.2.1 _ _ rfl,
    gesture_eq_iff_fields.2.2 3 (.Absolute .AbsoluteUp) (some "swipe") none (by decide)⟩

/-- Claim C10: `Gesture.toStringInPlace` only appends: the result is the
prior buffer contents followed by `Gesture.toString`, so the prior contents
survive unchanged as a prefix of the data; the gesture argument is a pure
input and is never modified. -/
theorem gesture_to_string_in_place_appends (g : Gesture) (s : String) :
    Gesture.toStringInPlace g s = s ++ Gesture.toString g
      ∧ (Gesture.toStringInPlace g s).data = s.data ++ (Gesture.toString g).data := by
  constructor
  · rfl
  · rw [show Gesture.toStringInPlace g s = s ++ Gesture.toString g from rfl,
      String.data_append]

/-- Witness for C10 on a nonempty buffer. -/
theorem gesture_to_string_in_place_appends_witness :
    Gesture.toStringInPlace (Gesture.new 2 (.Relative .RelativeForward)) "prior "
        = "prior " ++ Gesture.toString (Gesture.new 2 (.Relative .RelativeForward))
      ∧ (Gesture.toStringInPlace (Gesture.new 2 (.Relative .RelativeForward))
            "prior ").data
          = ("prior " : String).data
              ++ (Gesture.toString (Gesture.new 2 (.Relative .RelativeForward))).data :=
  gesture_to_string_in_place_appends (Gesture.new 2 (.Relative .RelativeForward)) "prior "
